import Mathlib

/-!
Shallow embedding of the `cpbar` console progress bar (`src/lib.rs`).

The Rust crate wraps an iterator in a `ProgressBar` that, on every call to
`Iterator::next`, first renders a status line, then increments its consumption
counter, then delegates retrieval to the wrapped iterator.  Two display modes
exist: `Unbounded` (count and elapsed time only) and `Bounded` (fixed total,
percentage and a bar).

Modelling conventions:
* the wrapped iterator is embedded as a `List`; `Iterator::next` on it is
  `head?` / `tail`, and `ExactSizeIterator::len` is `List.length`;
* Rust `usize` arithmetic is `Nat` with explicit fallibility: division panics
  on a zero divisor and subtraction panics on underflow, so both are embedded
  as `Option Nat` (`rustDiv`, `rustSub`); a panicking render makes the whole
  call return `none`;
* wall-clock time cannot be computed in a pure embedding: `Instant::now()`
  values are abstract `Nat` timestamps, and the already-formatted elapsed-time
  field (Rust `{:.4}` applied to `elapsed.as_secs_f64()` resp. `as_secs_f32()`)
  is an abstract `String` argument threaded into each render;
* the `println!` side effects are embedded by *returning* the printed line
  (without the trailing newline); the blank line printed by `ProgressBar::new`
  is a side effect outside the returned state and is not part of any claim.
-/

/-- Escape sequence printed before every status line (src/lib.rs `CLEAR`):
clear from cursor to end of screen, then move the cursor up one line. -/
def CLEAR : String := "\x1b[0J\x1b[1A"

/-- Fixed bar width used once the total reaches it (src/lib.rs `MAX_COLUMN_WIDTH`). -/
def MAX_COLUMN_WIDTH : Nat := 30

/-- Rust `usize` division: panics (embedded as `none`) when the divisor is zero,
otherwise floor division. -/
def rustDiv (a b : Nat) : Option Nat :=
  if b = 0 then none else some (a / b)

/-- Rust `usize` subtraction: panics (embedded as `none`) on underflow. -/
def rustSub (a b : Nat) : Option Nat :=
  if a < b then none else some (a - b)

/-- Rust `str::repeat` for a single-character string: `n` copies of `c`. -/
def repeatChar (c : Char) (n : Nat) : String :=
  String.mk (List.replicate n c)

/-- Rust width-3 integer formatting (the `percent` field of the bounded format
string): right-aligned, padded on the left with spaces to width 3. -/
def fmtWidth3 (n : Nat) : String :=
  let s := Nat.repr n
  if 3 ≤ s.length then s else String.mk (List.replicate (3 - s.length) ' ') ++ s

/-- Unbounded type state (src/lib.rs `Unbounded`): no fields. -/
structure Unbounded where
  deriving DecidableEq

/-- Bounded type state (src/lib.rs `Bounded`): the fixed total and the pair of
boundary delimiter characters. -/
structure Bounded where
  bound : Nat
  delims : Char × Char
  deriving DecidableEq

/-- The progress bar state (src/lib.rs `ProgressBar<Iter, Bound>`): the wrapped
iterator, the zero-based consumption counter `index`, the start timestamp
(abstract `Nat`), and the mode value. -/
structure ProgressBar (α : Type) (B : Type) where
  iter : List α
  index : Nat
  start : Nat
  bound : B
  deriving DecidableEq

/-- Embeds `impl ProgressBarDisplay for Bounded` (src/lib.rs `Bounded::display`).
Reads the counter `index` from the progress state; `elapsed` stands for the
formatted elapsed-time field computed from `progress.start`.  Faithfully
fallible: `percent = (index * 100) / bound` panics when `bound = 0`, and the
two `usize` subtractions feeding `str::repeat` panic on underflow. -/
def Bounded.display (b : Bounded) (index : Nat) (elapsed : String) : Option String :=
  match rustDiv (index * 100) b.bound with
  | none => none
  | some percent =>
    if b.bound < MAX_COLUMN_WIDTH then
      match rustSub b.bound index with
      | none => none
      | some rem =>
        some (CLEAR ++ fmtWidth3 percent ++ "% " ++ String.singleton b.delims.1 ++
          repeatChar '▓' index ++ repeatChar '░' rem ++ String.singleton b.delims.2 ++
          " " ++ Nat.repr index ++ "/" ++ Nat.repr b.bound ++ " " ++ elapsed ++ " Secs")
    else
      let ticks := MAX_COLUMN_WIDTH * percent / 100
      match rustSub MAX_COLUMN_WIDTH ticks with
      | none => none
      | some rem =>
        some (CLEAR ++ fmtWidth3 percent ++ "% " ++ String.singleton b.delims.1 ++
          repeatChar '▓' ticks ++ repeatChar '░' rem ++ String.singleton b.delims.2 ++
          " " ++ Nat.repr index ++ "/" ++ Nat.repr b.bound ++ " " ++ elapsed ++ " Secs")

/-- Embeds `impl ProgressBarDisplay for Unbounded` (src/lib.rs
`Unbounded::display`): prints the clear sequence, then
`[<counter> in <elapsed> Secs] ` — note the trailing space present in the
source format string `"{}[{} in {:.4} Secs] "`.  Never faults. -/
def Unbounded.display (index : Nat) (elapsed : String) : String :=
  CLEAR ++ "[" ++ Nat.repr index ++ " in " ++ elapsed ++ " Secs] "

/-- Embeds the `ProgressBarDisplay` trait: the line a mode renders from the
mode value, the counter it reads from the progress state, and the formatted
elapsed-time field; `none` embeds a panicking render. -/
class ProgressBarDisplay (B : Type) where
  display : B → Nat → String → Option String

instance Bounded.instDisplay : ProgressBarDisplay Bounded :=
  ⟨fun b index elapsed => b.display index elapsed⟩

instance Unbounded.instDisplay : ProgressBarDisplay Unbounded :=
  ⟨fun _ index elapsed => some (Unbounded.display index elapsed)⟩

/-- Embeds `ProgressBar::new` (src/lib.rs): counter 0, start timestamp `now`,
unbounded mode.  (The blank `println!()` is a terminal side effect with no
state content.) -/
def ProgressBar.new {α : Type} (iter : List α) (now : Nat) : ProgressBar α Unbounded :=
  { iter := iter, index := 0, start := now, bound := ⟨⟩ }

/-- Embeds `Iterator::next for ProgressBar` (src/lib.rs): render first (a
panicking render aborts the call, embedded as `none`), then increment the
counter, then delegate retrieval to the wrapped iterator.  Returns the
rendered line, the delegated item, and the successor state. -/
def ProgressBar.next {α B : Type} [ProgressBarDisplay B] (p : ProgressBar α B)
    (elapsed : String) : Option (String × Option α × ProgressBar α B) :=
  match ProgressBarDisplay.display p.bound p.index elapsed with
  | none => none
  | some line =>
    some (line, p.iter.head?,
      { iter := p.iter.tail, index := p.index + 1, start := p.start, bound := p.bound })

/-- Embeds `ProgressBar::with_bounds` (src/lib.rs): captures the wrapped
iterator's exact remaining length (`ExactSizeIterator::len`, i.e.
`List.length`) as the fixed total, resets the start timestamp to `now`
(`Instant::now()` at transition time), installs the default delimiters
`('[', ']')`, and keeps the iterator and counter. -/
def ProgressBar.with_bounds {α : Type} (p : ProgressBar α Unbounded) (now : Nat) :
    ProgressBar α Bounded :=
  { iter := p.iter, start := now, index := p.index,
    bound := { bound := p.iter.length, delims := ('[', ']') } }

/-- Embeds `ProgressBar::with_delims` (src/lib.rs): overrides the delimiter
pair of a bounded bar. -/
def ProgressBar.with_delims {α : Type} (p : ProgressBar α Bounded)
    (delims : Char × Char) : ProgressBar α Bounded :=
  { p with bound := { p.bound with delims := delims } }

/-- Driver: performs `n` successive `next` calls, threading the state and
collecting the trace of (rendered line, delegated item) pairs; the `k`-th call
of the run (zero-based) receives the formatted elapsed string `es k`.  A
faulting call aborts the whole run. -/
def ProgressBar.run {α B : Type} [ProgressBarDisplay B] :
    Nat → ProgressBar α B → (Nat → String) →
      Option (List (String × Option α) × ProgressBar α B)
  | 0, p, _ => some ([], p)
  | n + 1, p, es =>
    match p.next (es 0) with
    | none => none
    | some (line, item, p') =>
      match ProgressBar.run n p' (fun k => es (k + 1)) with
      | none => none
      | some (tr, q) => some ((line, item) :: tr, q)

/-! ## Helper lemmas -/

/-- String concatenation is associative (via the underlying character lists). -/
theorem string_append_assoc (a b c : String) : a ++ b ++ c = a ++ (b ++ c) := by
  rcases a with ⟨la⟩; rcases b with ⟨lb⟩; rcases c with ⟨lc⟩
  show String.mk (la ++ lb ++ lc) = String.mk (la ++ (lb ++ lc))
  rw [List.append_assoc]

/-- Anatomy of a successful `next` call: the rendered line is the display of
the pre-increment counter, the item is the wrapped iterator's own output, and
the successor state advances the iterator and the counter, keeping the start
timestamp and the mode. -/
theorem ProgressBar.next_spec {α B : Type} [ProgressBarDisplay B]
    (p : ProgressBar α B) (e : String) (line : String) (item : Option α)
    (p' : ProgressBar α B) (h : p.next e = some (line, item, p')) :
    ProgressBarDisplay.display p.bound p.index e = some line ∧
    item = p.iter.head? ∧ p'.iter = p.iter.tail ∧
    p'.index = p.index + 1 ∧ p'.start = p.start ∧ p'.bound = p.bound := by
  unfold ProgressBar.next at h
  cases hd : ProgressBarDisplay.display p.bound p.index e with
  | none => simp [hd] at h
  | some l =>
    simp only [hd, Option.some.injEq, Prod.mk.injEq] at h
    obtain ⟨h1, h2, h3⟩ := h
    subst h1; subst h3
    exact ⟨rfl, h2.symm, rfl, rfl, rfl, rfl⟩

/-- Anatomy of a successful `n`-call run: the counter advances by exactly one
per call, the mode is unchanged, the trace has exactly one entry per call, and
the `k`-th entry's line is the display of counter `p.index + k`. -/
theorem ProgressBar.run_spec {α B : Type} [ProgressBarDisplay B]
    (n : Nat) (p : ProgressBar α B) (es : Nat → String)
    (tr : List (String × Option α)) (q : ProgressBar α B)
    (h : ProgressBar.run n p es = some (tr, q)) :
    q.index = p.index + n ∧ q.bound = p.bound ∧ tr.length = n ∧
    (∀ k, k < n → ∃ l it, tr.get? k = some (l, it) ∧
      ProgressBarDisplay.display p.bound (p.index + k) (es k) = some l) := by
  induction n generalizing p es tr q with
  | zero =>
    simp only [ProgressBar.run, Option.some.injEq, Prod.mk.injEq] at h
    obtain ⟨h1, h2⟩ := h
    subst h1; subst h2
    exact ⟨rfl, rfl, rfl, fun k hk => absurd hk (Nat.not_lt_zero k)⟩
  | succ n ih =>
    simp only [ProgressBar.run] at h
    cases hx : p.next (es 0) with
    | none => rw [hx] at h; cases h
    | some r =>
      obtain ⟨line, item, p'⟩ := r
      rw [hx] at h
      cases hr : ProgressBar.run n p' (fun k => es (k + 1)) with
      | none =>
        simp only [hr] at h
        exact Option.noConfusion h
      | some s =>
        obtain ⟨tr', q'⟩ := s
        simp only [hr, Option.some.injEq, Prod.mk.injEq] at h
        obtain ⟨h1, h2⟩ := h
        subst h1; subst h2
        obtain ⟨hdisp, _, _, hidx, _, hbound⟩ := ProgressBar.next_spec p (es 0) line item p' hx
        obtain ⟨ih1, ih2, ih3, ih4⟩ := ih p' (fun k => es (k + 1)) tr' q' hr
        refine ⟨by omega, by rw [ih2, hbound], by simp [ih3], ?_⟩
        intro k hk
        cases k with
        | zero => exact ⟨line, item, rfl, by simpa using hdisp⟩
        | succ j =>
          obtain ⟨l, it, hget, hd⟩ := ih4 j (by omega)
          refine ⟨l, it, by simpa using hget, ?_⟩
          rw [hbound] at hd
          have : p'.index + j = p.index + (j + 1) := by omega
          rw [this] at hd
          exact hd

/-- With a positive total, the percent value never exceeds 100 while the
counter stays within the total. -/
theorem percent_le_100 (t c : Nat) (h0 : 0 < t) (hc : c ≤ t) :
    c * 100 / t ≤ 100 := by
  have h1 : c * 100 ≤ t * 100 := by omega
  calc c * 100 / t ≤ t * 100 / t := Nat.div_le_div_right h1
    _ = 100 := by rw [Nat.mul_comm, Nat.mul_div_cancel _ h0]

/-- The scaled tick count never exceeds the 30-column width while the counter
stays within the total. -/
theorem ticks_le_30 (t c : Nat) (h0 : 0 < t) (hc : c ≤ t) :
    30 * (c * 100 / t) / 100 ≤ 30 := by
  have h1 : 30 * (c * 100 / t) ≤ 30 * 100 :=
    Nat.mul_le_mul_left 30 (percent_le_100 t c h0 hc)
  calc 30 * (c * 100 / t) / 100 ≤ 30 * 100 / 100 := Nat.div_le_div_right h1
    _ = 30 := by norm_num

/-- Closed form of a non-faulting bounded render: with a positive total and a
counter within it, `Bounded.display` succeeds and produces the full status
line, whose bar has `counter` filled and `total - counter` empty glyphs below
the 30 threshold, and the scaled `30 * percent / 100` filled glyphs at or
above it. -/
theorem Bounded.display_eq (t : Nat) (d : Char × Char) (c : Nat) (e : String)
    (h0 : 0 < t) (hc : c ≤ t) :
    Bounded.display ⟨t, d⟩ c e =
      some (CLEAR ++ fmtWidth3 (c * 100 / t) ++ "% " ++ String.singleton d.1 ++
        repeatChar '▓' (if t < 30 then c else 30 * (c * 100 / t) / 100) ++
        repeatChar '░' (if t < 30 then t - c else 30 - 30 * (c * 100 / t) / 100) ++
        String.singleton d.2 ++ " " ++ Nat.repr c ++ "/" ++ Nat.repr t ++
        " " ++ e ++ " Secs") := by
  have ht : ¬ t = 0 := by omega
  have hsub : ¬ t < c := by omega
  by_cases hlt : t < 30
  · simp [Bounded.display, rustDiv, rustSub, MAX_COLUMN_WIDTH, ht, hsub, hlt]
  · have hticks : ¬ (30 : Nat) < 30 * (c * 100 / t) / 100 := by
      have := ticks_le_30 t c h0 hc
      omega
    simp [Bounded.display, rustDiv, rustSub, MAX_COLUMN_WIDTH, ht, hticks, hlt]

/-- The percent field of a successful bounded render, shared shape helper:
with a positive total and the counter within it, the line after the clear
sequence starts with the width-3 rendering of `floor(counter * 100 / total)`
followed by a percent sign. -/
theorem Bounded.display_percent_prefix (t c : Nat) (d : Char × Char)
    (e : String) (h0 : 0 < t) (hc : c ≤ t) :
    ∃ rest, Bounded.display ⟨t, d⟩ c e =
      some (CLEAR ++ fmtWidth3 (c * 100 / t) ++ "% " ++ rest) := by
  refine ⟨String.singleton d.1 ++
    (repeatChar '▓' (if t < 30 then c else 30 * (c * 100 / t) / 100) ++
      (repeatChar '░' (if t < 30 then t - c else 30 - 30 * (c * 100 / t) / 100) ++
        (String.singleton d.2 ++ (" " ++ (Nat.repr c ++ ("/" ++ (Nat.repr t ++
          (" " ++ (e ++ " Secs"))))))))), ?_⟩
  rw [Bounded.display_eq t d c e h0 hc]
  simp only [string_append_assoc]

/-! ## Claim theorems -/

/-- Claim C2: on every retrieval call (`Iterator::next` on `ProgressBar`), the
status line is rendered from the counter before it is incremented and before
retrieval is delegated to the wrapped producer, and the call returns exactly
what the wrapped producer returns, with no transformation of the item value
(the item is the head of the wrapped sequence, and the new state holds its
tail, the incremented counter, and the unchanged timestamp and mode). -/
theorem c2_render_before_increment_and_delegation {α B : Type}
    [ProgressBarDisplay B] (p : ProgressBar α B) (e : String) (line : String)
    (item : Option α) (p' : ProgressBar α B)
    (h : p.next e = some (line, item, p')) :
    ProgressBarDisplay.display p.bound p.index e = some line ∧
    item = p.iter.head? ∧ p'.iter = p.iter.tail ∧
    p'.index = p.index + 1 ∧ p'.start = p.start ∧ p'.bound = p.bound :=
  ProgressBar.next_spec p e line item p' h

/-- Witness for C2: a concrete one-element unbounded bar; the call renders the
counter-0 line and returns the producer's item 9 unchanged. -/
theorem c2_witness :
    ProgressBarDisplay.display (ProgressBar.new [9] 7).bound
      (ProgressBar.new [9] 7).index "E" = some (CLEAR ++ "[0 in E Secs] ") ∧
    (some 9 : Option Nat) = (ProgressBar.new [9] 7).iter.head? ∧
    (⟨[], 1, 7, ⟨⟩⟩ : ProgressBar Nat Unbounded).iter = (ProgressBar.new [9] 7).iter.tail ∧
    (⟨[], 1, 7, ⟨⟩⟩ : ProgressBar Nat Unbounded).index = (ProgressBar.new [9] 7).index + 1 ∧
    (⟨[], 1, 7, ⟨⟩⟩ : ProgressBar Nat Unbounded).start = (ProgressBar.new [9] 7).start ∧
    (⟨[], 1, 7, ⟨⟩⟩ : ProgressBar Nat Unbounded).bound = (ProgressBar.new [9] 7).bound :=
  c2_render_before_increment_and_delegation (ProgressBar.new [9] 7) "E"
    (CLEAR ++ "[0 in E Secs] ") (some 9) ⟨[], 1, 7, ⟨⟩⟩ (by decide)

/-- Claim C3: for every wrapped sequence and N ≥ 1, a run of N retrieval calls
starting from counter 0 leaves the counter at exactly N (one increment per
retrieval, never exceeding the number of retrievals), and the (j+1)-th render
observed counter j — in particular the Nth render observed N − 1. -/
theorem c3_counter_observed_by_nth_render {α B : Type} [ProgressBarDisplay B]
    (p0 : ProgressBar α B) (es : Nat → String) (N : Nat)
    (tr : List (String × Option α)) (pN : ProgressBar α B)
    (_hN : 1 ≤ N) (h0 : p0.index = 0)
    (h : ProgressBar.run N p0 es = some (tr, pN)) :
    pN.index = N ∧ tr.length = N ∧
    (∀ j, j < N → ∃ l it, tr.get? j = some (l, it) ∧
      ProgressBarDisplay.display p0.bound j (es j) = some l) := by
  obtain ⟨h1, _, h3, h4⟩ := ProgressBar.run_spec N p0 es tr pN h
  rw [h0] at h1
  refine ⟨by omega, h3, ?_⟩
  intro j hj
  obtain ⟨l, it, hget, hd⟩ := h4 j hj
  rw [h0, Nat.zero_add] at hd
  exact ⟨l, it, hget, hd⟩

/-- Witness for C3: a two-element unbounded bar run for N = 2 ends with
counter 2, a two-line trace, and render j observing counter j. -/
theorem c3_witness :
    (⟨[], 2, 0, ⟨⟩⟩ : ProgressBar Nat Unbounded).index = 2 ∧
    ([(CLEAR ++ "[0 in E Secs] ", some 3), (CLEAR ++ "[1 in E Secs] ", some 4)] :
      List (String × Option Nat)).length = 2 ∧
    (∀ j, j < 2 → ∃ l it,
      ([(CLEAR ++ "[0 in E Secs] ", some 3), (CLEAR ++ "[1 in E Secs] ", some 4)] :
        List (String × Option Nat)).get? j = some (l, it) ∧
      ProgressBarDisplay.display (ProgressBar.new [3, 4] 0).bound j
        ((fun _ => "E") j) = some l) :=
  c3_counter_observed_by_nth_render (ProgressBar.new [3, 4] 0) (fun _ => "E") 2
    [(CLEAR ++ "[0 in E Secs] ", some 3), (CLEAR ++ "[1 in E Secs] ", some 4)]
    ⟨[], 2, 0, ⟨⟩⟩ (by omega) rfl (by decide)

/-- Claim C4: every bounded render with positive total (counter within the
total) displays, right after the clear sequence, the percentage
floor(counter * 100 / total), computed in exact natural-number arithmetic. -/
theorem c4_percent_is_floor (t c : Nat) (d : Char × Char) (e : String)
    (h0 : 0 < t) (hc : c ≤ t) :
    ∃ rest, Bounded.display ⟨t, d⟩ c e =
      some (CLEAR ++ fmtWidth3 (c * 100 / t) ++ "% " ++ rest) :=
  Bounded.display_percent_prefix t c d e h0 hc

/-- Witness for C4: the 50-element bounded sequence at counter 25 renders
percent 50. -/
theorem c4_witness :
    ∃ rest, Bounded.display ⟨50, ('[', ']')⟩ 25 "E" =
      some (CLEAR ++ fmtWidth3 50 ++ "% " ++ rest) :=
  c4_percent_is_floor 50 25 ('[', ']') "E" (by omega) (by omega)

/-- Claim C5: bar width invariant — below the 30 threshold the bar has exactly
`counter` filled and `total - counter` empty glyphs (summing to `total`); at
or above it, `floor(30 * percent / 100)` filled and the rest empty columns
(summing to 30), for every counter from 0 to total inclusive. -/
theorem c5_bar_width_invariant (t c : Nat) (d : Char × Char) (e : String)
    (h0 : 0 < t) (hc : c ≤ t) :
    ∃ f emp pre post,
      Bounded.display ⟨t, d⟩ c e =
        some (pre ++ (repeatChar '▓' f ++ (repeatChar '░' emp ++ post))) ∧
      (t < 30 → f = c ∧ emp = t - c ∧ f + emp = t) ∧
      (30 ≤ t → f = 30 * (c * 100 / t) / 100 ∧ emp = 30 - f ∧ f + emp = 30) := by
  refine ⟨if t < 30 then c else 30 * (c * 100 / t) / 100,
    if t < 30 then t - c else 30 - 30 * (c * 100 / t) / 100,
    CLEAR ++ fmtWidth3 (c * 100 / t) ++ "% " ++ String.singleton d.1,
    String.singleton d.2 ++ (" " ++ (Nat.repr c ++ ("/" ++ (Nat.repr t ++
      (" " ++ (e ++ " Secs")))))), ?_, ?_, ?_⟩
  · rw [Bounded.display_eq t d c e h0 hc]
    simp only [string_append_assoc]
  · intro hlt
    simp only [if_pos hlt]
    exact ⟨trivial, trivial, by omega⟩
  · intro hge
    have hlt : ¬ t < 30 := by omega
    have := ticks_le_30 t c h0 hc
    simp only [if_neg hlt]
    exact ⟨trivial, trivial, by omega⟩

/-- Witness for C5: the 10-element bounded bar at counter 9 (below the
threshold: 9 filled, 1 empty) — the hypotheses hold at t = 10, c = 9. -/
theorem c5_witness :
    ∃ f emp pre post,
      Bounded.display ⟨10, ('[', ']')⟩ 9 "E" =
        some (pre ++ (repeatChar '▓' f ++ (repeatChar '░' emp ++ post))) ∧
      ((10 : Nat) < 30 → f = 9 ∧ emp = 10 - 9 ∧ f + emp = 10) ∧
      ((30 : Nat) ≤ 10 → f = 30 * (9 * 100 / 10) / 100 ∧ emp = 30 - f ∧ f + emp = 30) :=
  c5_bar_width_invariant 10 9 ('[', ']') "E" (by omega) (by omega)

/-- Claim C6: in Bounded mode with total 0 the percent computation divides by
zero and the render faults at runtime; the fault is unhandled — the retrieval
call itself faults, with no guard and no recovery. -/
theorem c6_total_zero_division_fault {α : Type} (p : ProgressBar α Bounded)
    (e : String) (h : p.bound.bound = 0) :
    Bounded.display p.bound p.index e = none ∧ p.next e = none := by
  have hd : Bounded.display p.bound p.index e = none := by
    simp [Bounded.display, rustDiv, h]
  refine ⟨hd, ?_⟩
  simp only [ProgressBar.next]
  rw [show (ProgressBarDisplay.display p.bound p.index e : Option String) =
    Bounded.display p.bound p.index e from rfl, hd]

/-- Witness for C6: a bounded bar whose total is 0 faults on render and on
retrieval. -/
theorem c6_witness :
    Bounded.display
      (⟨[], 0, 0, ⟨0, ('[', ']')⟩⟩ : ProgressBar Nat Bounded).bound
      (⟨[], 0, 0, ⟨0, ('[', ']')⟩⟩ : ProgressBar Nat Bounded).index "E" = none ∧
    (⟨[], 0, 0, ⟨0, ('[', ']')⟩⟩ : ProgressBar Nat Bounded).next "E" = none :=
  c6_total_zero_division_fault ⟨[], 0, 0, ⟨0, ('[', ']')⟩⟩ "E" rfl

/-- Claim C7: for a fixed positive total, the displayed percent is
non-decreasing in the counter over [0, total]: both renders succeed with
percent fields floor(c1 * 100 / total) ≤ floor(c2 * 100 / total). -/
theorem c7_percent_monotone (t c1 c2 : Nat) (d : Char × Char) (e : String)
    (h0 : 0 < t) (h12 : c1 ≤ c2) (h2 : c2 ≤ t) :
    ∃ r1 r2,
      Bounded.display ⟨t, d⟩ c1 e =
        some (CLEAR ++ fmtWidth3 (c1 * 100 / t) ++ "% " ++ r1) ∧
      Bounded.display ⟨t, d⟩ c2 e =
        some (CLEAR ++ fmtWidth3 (c2 * 100 / t) ++ "% " ++ r2) ∧
      c1 * 100 / t ≤ c2 * 100 / t := by
  obtain ⟨r1, hr1⟩ := Bounded.display_percent_prefix t c1 d e h0 (by omega)
  obtain ⟨r2, hr2⟩ := Bounded.display_percent_prefix t c2 d e h0 h2
  exact ⟨r1, r2, hr1, hr2, Nat.div_le_div_right (by omega)⟩

/-- Witness for C7: t = 50, c1 = 25, c2 = 40 — percent moves from 50 to 80. -/
theorem c7_witness :
    ∃ r1 r2,
      Bounded.display ⟨50, ('[', ']')⟩ 25 "E" =
        some (CLEAR ++ fmtWidth3 (25 * 100 / 50) ++ "% " ++ r1) ∧
      Bounded.display ⟨50, ('[', ']')⟩ 40 "E" =
        some (CLEAR ++ fmtWidth3 (40 * 100 / 50) ++ "% " ++ r2) ∧
      25 * 100 / 50 ≤ 40 * 100 / 50 :=
  c7_percent_monotone 50 25 40 ('[', ']') "E" (by omega) (by omega) (by omega)

/-- Claim C8: `with_bounds` captures the producer's exact remaining length as
the fixed total, resets the start timestamp to the transition-time clock
value, installs the default boundary glyphs '[' and ']', and returns a state
retaining the same producer and the same counter unchanged. -/
theorem c8_with_bounds_frame {α : Type} (p : ProgressBar α Unbounded) (now : Nat) :
    (p.with_bounds now).iter = p.iter ∧
    (p.with_bounds now).index = p.index ∧
    (p.with_bounds now).start = now ∧
    (p.with_bounds now).bound.bound = p.iter.length ∧
    (p.with_bounds now).bound.delims = ('[', ']') :=
  ⟨rfl, rfl, rfl, rfl, rfl⟩

/-- Claim C9 counterexample: at counter 3 with elapsed field "0.1234", the
unbounded status line after the clear escape sequence is NOT exactly
`[3 in 0.1234 Secs]` — the source format string `"{}[{} in {:.4} Secs] "`
ends with a space, so the printed line carries a trailing space. -/
theorem c9_counterexample :
    ¬ (Unbounded.display 3 "0.1234" = CLEAR ++ "[3 in 0.1234 Secs]") := by
  decide

/-- Claim C9 (amended): every unbounded render prints, after the clear escape
sequence, exactly `[<counter> in <elapsed> Secs] ` — with a trailing space
after the closing bracket — and no percentage and no bar; in particular the
4th render after 3 retrievals of a long sequence shows `[3 in <elapsed> Secs] `. -/
theorem c9_unbounded_line :
    (∀ (c : Nat) (e : String),
      Unbounded.display c e =
        CLEAR ++ ("[" ++ (Nat.repr c ++ (" in " ++ (e ++ " Secs] "))))) ∧
    (∃ tr q,
      ProgressBar.run 4 (ProgressBar.new (List.range 50) 0) (fun _ => "E") =
        some (tr, q) ∧
      tr.get? 3 = some (CLEAR ++ "[3 in E Secs] ", some 3)) := by
  constructor
  · intro c e
    simp only [Unbounded.display, string_append_assoc]
  · exact ⟨_, _, rfl, by decide⟩

/-- Claim C10: the counter is incremented on every retrieval even when the
wrapped producer is exhausted, so a retrieval invoked after exhaustion leaves
the counter above the total; the next render of a bounded bar with total < 30
then computes `total - counter` on unsigned integers, which underflows — the
render, and with it the whole retrieval call, faults. -/
theorem c10_post_exhaustion_underflow_fault {α : Type}
    (p : ProgressBar α Bounded) (e : String)
    (hlt : p.bound.bound < 30) (hover : p.bound.bound < p.index) :
    rustSub p.bound.bound p.index = none ∧ p.next e = none := by
  have hsub : rustSub p.bound.bound p.index = none := by
    simp [rustSub, hover]
  refine ⟨hsub, ?_⟩
  have hd : Bounded.display p.bound p.index e = none := by
    unfold Bounded.display
    cases hdiv : rustDiv (p.index * 100) p.bound.bound with
    | none => rfl
    | some percent =>
      have hw : p.bound.bound < MAX_COLUMN_WIDTH := by
        simpa [MAX_COLUMN_WIDTH] using hlt
      simp [hw, hsub]
  simp only [ProgressBar.next]
  rw [show (ProgressBarDisplay.display p.bound p.index e : Option String) =
    Bounded.display p.bound p.index e from rfl, hd]

/-- Witness for C10: a 2-element bounded bar driven past exhaustion — at
counter 3 (total 2) the subtraction underflows and the retrieval call faults. -/
theorem c10_witness :
    rustSub
      (⟨[], 3, 0, ⟨2, ('[', ']')⟩⟩ : ProgressBar Nat Bounded).bound.bound
      (⟨[], 3, 0, ⟨2, ('[', ']')⟩⟩ : ProgressBar Nat Bounded).index = none ∧
    (⟨[], 3, 0, ⟨2, ('[', ']')⟩⟩ : ProgressBar Nat Bounded).next "E" = none :=
  c10_post_exhaustion_underflow_fault ⟨[], 3, 0, ⟨2, ('[', ']')⟩⟩ "E"
    (by decide) (by decide)

/-- Claim C1: a render happens exactly once per retrieval attempt — every
successful n-call run produces exactly n rendered lines — and, concretely, on
the 10-element sequence wrapped with `with_bounds` and default glyphs, the 10
item-yielding retrievals render at counters 0..9, so the final such render
(at counter 9, before the 10th item is fetched) shows
`90% [▓▓▓▓▓▓▓▓▓░] 9/10 <elapsed> Secs` (full-resolution bar, total 10 < 30;
the width-3 percent field pads it with one leading space); the further
attempt that discovers exhaustion also renders exactly once, before the
producer reports exhaustion, and no render happens after that report within
the call. -/
theorem c1_render_once_per_attempt :
    (∀ {α B : Type} [ProgressBarDisplay B] (p : ProgressBar α B)
        (es : Nat → String) (n : Nat) (tr : List (String × Option α))
        (q : ProgressBar α B),
        ProgressBar.run n p es = some (tr, q) → tr.length = n) ∧
    (∃ tr p10,
      ProgressBar.run 10 ((ProgressBar.new (List.range 10) 0).with_bounds 0)
          (fun _ => "E") = some (tr, p10) ∧
      tr.map (fun x => x.2) = (List.range 10).map some ∧
      tr.get? 9 = some (CLEAR ++ " " ++ "90% [▓▓▓▓▓▓▓▓▓░] 9/10 E Secs", some 9) ∧
      p10.index = 10 ∧
      p10.next "E" = some (CLEAR ++ "100% [▓▓▓▓▓▓▓▓▓▓] 10/10 E Secs", none,
        ⟨[], 11, 0, ⟨10, ('[', ']')⟩⟩)) := by
  constructor
  · intro α B inst p es n tr q h
    exact (ProgressBar.run_spec n p es tr q h).2.2.1
  · refine ⟨[(CLEAR ++ "  0% [░░░░░░░░░░] 0/10 E Secs", some 0),
      (CLEAR ++ " 10% [▓░░░░░░░░░] 1/10 E Secs", some 1),
      (CLEAR ++ " 20% [▓▓░░░░░░░░] 2/10 E Secs", some 2),
      (CLEAR ++ " 30% [▓▓▓░░░░░░░] 3/10 E Secs", some 3),
      (CLEAR ++ " 40% [▓▓▓▓░░░░░░] 4/10 E Secs", some 4),
      (CLEAR ++ " 50% [▓▓▓▓▓░░░░░] 5/10 E Secs", some 5),
      (CLEAR ++ " 60% [▓▓▓▓▓▓░░░░] 6/10 E Secs", some 6),
      (CLEAR ++ " 70% [▓▓▓▓▓▓▓░░░] 7/10 E Secs", some 7),
      (CLEAR ++ " 80% [▓▓▓▓▓▓▓▓░░] 8/10 E Secs", some 8),
      (CLEAR ++ " 90% [▓▓▓▓▓▓▓▓▓░] 9/10 E Secs", some 9)],
      ⟨[], 10, 0, ⟨10, ('[', ']')⟩⟩, ?_, ?_, ?_, ?_, ?_⟩ <;> decide

/-- Witness for C1: the one-render-per-attempt law applied at a concrete
one-element unbounded run. -/
theorem c1_witness :
    ([(CLEAR ++ "[0 in E Secs] ", (some 5 : Option Nat))] :
      List (String × Option Nat)).length = 1 :=
  c1_render_once_per_attempt.1 (ProgressBar.new [5] 0) (fun _ => "E") 1
    [(CLEAR ++ "[0 in E Secs] ", some 5)] ⟨[], 1, 0, ⟨⟩⟩ (by decide)
